import Mathlib

/-!
Verification of the CORD-19 metadata exploration tool (`app.py`, the
interactive dashboard) and its companion batch script (`data.py`).

The pipeline is: load a CSV of paper metadata, clean it (drop rows missing
title or publish_time, fill missing abstract/journal with placeholders,
parse publish_time to a date dropping unparseable rows, derive the integer
year), filter by an inclusive year range, and aggregate (publications per
year, top-N journals, top-N title words after stop-word filtering).

The embedding models a dataframe as a list of records.  Date parsing
(`pd.to_datetime(_, errors="coerce")`) is an external library facility, so
the cleaner is parameterized over an arbitrary parse function
`String → Option Date`; the theorems hold for every such function.
-/

/-- A calendar date as produced by the date parser; `year` is the integer
calendar year that `df["publish_date"].dt.year` would extract. -/
structure Date where
  year : Int
  month : Nat
  day : Nat
deriving DecidableEq

/-- One raw row of `metadata.csv`, restricted to the columns the pipeline
touches.  A missing (NaN) cell is `none`. -/
structure Record where
  title : Option String
  abstract : Option String
  journal : Option String
  publish_time : Option String
deriving DecidableEq

/-- One row of the cleaned table: the four text columns are non-null and the
derived `publish_date` / `year` columns are present. -/
structure CleanedRecord where
  title : String
  abstract : String
  journal : String
  publish_time : String
  publish_date : Date
  year : Int
deriving DecidableEq

/-- Cleaning of one row, following `load_and_clean_data` in `app.py`
(identically, STEP 3 of `data.py`): rows missing `title` or `publish_time`
are dropped; missing `abstract` / `journal` are replaced by the placeholders
`"NO ABSTRACT PROVIDED"` / `"UNKNOWN JOURNAL"`; `publish_time` is parsed
with `errors="coerce"` and rows whose parse fails are dropped; `year` is the
integer year of the parsed date. -/
def cleanRow (parse : String → Option Date) (r : Record) : Option CleanedRecord :=
  match r.title, r.publish_time with
  | some t, some pt =>
    match parse pt with
    | some d =>
      some { title := t
             abstract := r.abstract.getD "NO ABSTRACT PROVIDED"
             journal := r.journal.getD "UNKNOWN JOURNAL"
             publish_time := pt
             publish_date := d
             year := d.year }
    | none => none
  | _, _ => none

/-- The cleaner over a whole table (`load_and_clean_data` without the file
I/O, which is out of scope): row-wise cleaning, keeping the rows that
survive. -/
def load_and_clean_data (parse : String → Option Date) (rows : List Record) :
    List CleanedRecord :=
  rows.filterMap (cleanRow parse)

/-- A cleaned row viewed again as a raw row, as happens when the cleaner is
re-run on its own output: every cell is present (non-null). -/
def recordOfCleaned (c : CleanedRecord) : Record :=
  { title := some c.title
    abstract := some c.abstract
    journal := some c.journal
    publish_time := some c.publish_time }

/-- The year-range filter
(`data[(data["year"] >= a) & (data["year"] <= b)]` in `app.py`):
keeps exactly the rows whose `year` lies in the inclusive range `[a, b]`. -/
def filtered_data (rows : List CleanedRecord) (a b : Int) : List CleanedRecord :=
  rows.filter (fun c => decide (a ≤ c.year) && decide (c.year ≤ b))

/-! ### Aggregation primitives

`Series.value_counts()` in pandas (and `Counter` in the batch script's word
count) groups values keeping the first-encountered order of distinct keys,
counts occurrences, and orders the result by count descending with ties in
first-encountered order (a stable descending sort); `.sort_index()` re-sorts
by key ascending; `.head(n)` truncates, and for negative `n` drops the last
`|n|` entries (Python slice `[:n]`). -/

/-- Distinct elements of a list in first-encountered order (the key order of
a pandas `value_counts` grouping / a Python `Counter`). -/
def dedupFirstAux {α : Type} [DecidableEq α] : List α → List α → List α
  | [], _ => []
  | x :: rest, seen =>
    if x ∈ seen then dedupFirstAux rest seen
    else x :: dedupFirstAux rest (x :: seen)

/-- Distinct elements in first-encountered order. -/
def dedupFirst {α : Type} [DecidableEq α] (l : List α) : List α :=
  dedupFirstAux l []

/-- Occurrence counts of each distinct value, keys in first-encountered
order (the grouping step shared by `value_counts` and `Counter`). -/
def countVals {α : Type} [DecidableEq α] (xs : List α) : List (α × Nat) :=
  (dedupFirst xs).map (fun x => (x, (xs.filter (fun y => decide (y = x))).length))

/-- Count-descending order on keyed counts: `p` may precede `q` when `p`'s
count is at least `q`'s. -/
def countDesc {α : Type} (p q : α × Nat) : Prop := q.2 ≤ p.2

instance {α : Type} : DecidableRel (@countDesc α) :=
  fun p q => Nat.decLe q.2 p.2

instance {α : Type} : IsTotal (α × Nat) countDesc :=
  ⟨fun p q => Nat.le_total q.2 p.2⟩

instance {α : Type} : IsTrans (α × Nat) countDesc :=
  ⟨fun _ _ _ h1 h2 => Nat.le_trans h2 h1⟩

/-- Key-ascending order on year counts (for `.sort_index()`). -/
def yearAsc (p q : Int × Nat) : Prop := p.1 ≤ q.1

instance : DecidableRel yearAsc := fun p q => Int.decLe p.1 q.1

instance : IsTotal (Int × Nat) yearAsc := ⟨fun p q => Int.le_total p.1 q.1⟩

instance : IsTrans (Int × Nat) yearAsc := ⟨fun _ _ _ h1 h2 => Int.le_trans h1 h2⟩

/-- `Series.value_counts()`: counts per distinct value, ordered by count
descending, ties in first-encountered order (stable sort over the
first-encountered grouping). -/
def value_counts {α : Type} [DecidableEq α] (xs : List α) : List (α × Nat) :=
  List.insertionSort countDesc (countVals xs)

/-- `.head(n)` with a Python `int` argument: the first `n` entries when
`n ≥ 0`, and all but the last `|n|` entries when `n < 0` (slice `[:n]`). -/
def head_int {α : Type} (n : Int) (l : List α) : List α :=
  if 0 ≤ n then l.take n.toNat else l.take (l.length - (-n).toNat)

/-- `filtered_data["year"].value_counts().sort_index()`: the year histogram,
re-sorted by year ascending. -/
def year_counts (rows : List CleanedRecord) : List (Int × Nat) :=
  List.insertionSort yearAsc (value_counts (rows.map (fun c => c.year)))

/-- `filtered_data["journal"].value_counts().head(n)`: top-`n` journals. -/
def top_journals (rows : List CleanedRecord) (n : Int) : List (String × Nat) :=
  head_int n (value_counts (rows.map (fun c => c.journal)))

/-! ### Title tokenization and stop-word filtering -/

/-- A regex word character (`\w`): alphanumeric or underscore. -/
def isWordChar (c : Char) : Bool := c.isAlphanum || c = '_'

/-- Helper for `tokenize`: scans the remaining characters, carrying the
current (reversed) run of word characters. -/
def tokenizeAux : List Char → List Char → List String
  | [], [] => []
  | [], c :: cs => [String.mk (c :: cs).reverse]
  | c :: rest, cur =>
    if isWordChar c then
      tokenizeAux rest (c :: cur)
    else
      match cur with
      | [] => tokenizeAux rest []
      | _ :: _ => String.mk cur.reverse :: tokenizeAux rest []

/-- `re.findall(r'\b\w+\b', s)`: the maximal runs of word characters. -/
def tokenize (s : String) : List String :=
  tokenizeAux s.data []

/-- `str.lower()` (ASCII model). -/
def strLower (s : String) : String := String.mk (s.data.map Char.toLower)

/-- `" ".join(filtered_data["title"].astype(str).str.lower())`: the
case-folded concatenation of all titles. -/
def all_titles (rows : List CleanedRecord) : String :=
  String.intercalate " " (rows.map (fun c => strLower c.title))

/-- The token list of the concatenated titles (`words` in the source). -/
def wordsOf (rows : List CleanedRecord) : List String :=
  tokenize (all_titles rows)

/-- The interactive tool's stop-word set (`stop_words` in `app.py`),
in source order. -/
def stop_words : List String :=
  ["the", "and", "of", "in", "a", "to", "on", "for",
   "with", "an", "by", "at", "from", "about", "study",
   "covid", "19", "coronavirus", "analysis", "research",
   "sars", "cov", "2", "patient", "patients"]

/-- The batch script's stop-word set (`stop_words` in `data.py`),
in source order. -/
def stop_words_batch : List String :=
  ["the", "and", "of", "in", "a", "to", "on", "for",
   "with", "an", "by", "at", "from", "about", "study",
   "covid", "19", "coronavirus", "analysis", "research"]

/-- The five terms present only in the interactive tool's set. -/
def extra_stop_words : List String := ["sars", "cov", "2", "patient", "patients"]

/-- The stop words of the interactive set whose length is at most 2. -/
def short_stop_words : List String :=
  ["a", "an", "at", "by", "in", "of", "on", "to", "19", "2"]

/-- The interactive stop-word set with the length-≤-2 words removed. -/
def stop_words_reduced : List String :=
  stop_words.filter (fun w => !(decide (w ∈ short_stop_words)))

/-- `[w for w in words if w not in stops and len(w) > 2]`, parameterized by
the stop-word list. -/
def filterTokens (stops : List String) (ws : List String) : List String :=
  ws.filter (fun w => !(decide (w ∈ stops)) && decide (2 < w.length))

/-- `filtered_words` in `app.py`: stop-word and short-token filtering with
the interactive stop-word set. -/
def filtered_words (rows : List CleanedRecord) : List String :=
  filterTokens stop_words (wordsOf rows)

/-- `Counter(ws).most_common(n)`: counts per distinct token, ordered by
count descending with ties in first-encountered order, truncated to `n`
(CPython's `heapq.nlargest` returns `[]` for `n ≤ 0`, so a natural-number
`n` is faithful). -/
def most_common (n : Nat) (ws : List String) : List (String × Nat) :=
  (value_counts ws).take n

/-- `top_words_list` in `app.py`: top-`n` words of the filtered tokens. -/
def top_words_list (rows : List CleanedRecord) (n : Nat) : List (String × Nat) :=
  most_common n (filtered_words rows)

/-- Top-`n` words with an arbitrary stop-word list (used to state the
redundancy of the short stop words). -/
def top_words_with (stops : List String) (rows : List CleanedRecord) (n : Nat) :
    List (String × Nat) :=
  most_common n (filterTokens stops (wordsOf rows))

/-! ### CSV export (Presenter boundary) -/

/-- Serialization of a parsed date, as `to_csv` renders the
`publish_date` column. -/
def dateStr (d : Date) : String :=
  toString d.year ++ "-" ++ toString d.month ++ "-" ++ toString d.day

/-- The header row of the exported CSV: the cleaned table keeps every
column, the original text columns followed by the derived ones. -/
def csvHeader : List String :=
  ["title", "abstract", "journal", "publish_time", "publish_date", "year"]

/-- One exported CSV row: every column of the cleaned record. -/
def csvRow (c : CleanedRecord) : List String :=
  [c.title, c.abstract, c.journal, c.publish_time, dateStr c.publish_date,
   toString c.year]

/-- `convert_df_to_csv(filtered_data)` with `to_csv(index=False)`: a header
row followed by one row per record of the dataframe passed in — the whole
filtered set, with all its columns. -/
def convert_df_to_csv (rows : List CleanedRecord) : List (List String) :=
  csvHeader :: rows.map csvRow

/-- One row of the on-screen sample
(`filtered_data[['publish_date', 'title', 'journal', 'abstract']]`). -/
def sampleRow (c : CleanedRecord) : List String :=
  [dateStr c.publish_date, c.title, c.journal, c.abstract]

/-- The on-screen sample: the four display columns, first 20 rows
(`.head(20)`). -/
def displayed_sample (rows : List CleanedRecord) : List (List String) :=
  (rows.map sampleRow).take 20

/-- Modelled from the spec: the export as §6 of the spec describes it,
"CSV download … containing the currently filtered columns
`publish_date, title, journal, abstract`" — a header and one row per
filtered record restricted to those four columns.  Stated only to be
compared with `convert_df_to_csv`, which is translated from the source. -/
def export_spec_columns (rows : List CleanedRecord) : List (List String) :=
  ["publish_date", "title", "journal", "abstract"] :: rows.map sampleRow

/-- Projection extracting the four display columns out of a full exported
row (`publish_date` is column 4, `title` 0, `journal` 2, `abstract` 1). -/
def projSample (row : List String) : List String :=
  [row.getD 4 "", row.getD 0 "", row.getD 2 "", row.getD 1 ""]

/-! ### Concrete inputs (the spec's §8 example) used by witnesses -/

/-- A concrete date parser for witnesses: accepts the two ISO dates of the
spec's example and rejects everything else (as `errors="coerce"` would
reject `"bad-date"`). -/
def parseDemo (s : String) : Option Date :=
  if s = "2020-05-01" then some ⟨2020, 5, 1⟩
  else if s = "2021-01-01" then some ⟨2021, 1, 1⟩
  else none

/-- The spec's example input table: a complete row, a row with a missing
title, and a row whose date does not parse. -/
def demoRows : List Record :=
  [{ title := some "COVID vaccine study", abstract := none,
     journal := some "Nature", publish_time := some "2020-05-01" },
   { title := none, abstract := none,
     journal := none, publish_time := some "2021-01-01" },
   { title := some "Unrelated paper", abstract := none,
     journal := some "Science", publish_time := some "bad-date" }]

/-- The one record the cleaner keeps from `demoRows`. -/
def demoCleaned : CleanedRecord :=
  { title := "COVID vaccine study", abstract := "NO ABSTRACT PROVIDED",
    journal := "Nature", publish_time := "2020-05-01",
    publish_date := ⟨2020, 5, 1⟩, year := 2020 }

/-- First record of the two-record demo table (spec §8's first example
title). -/
def demoRec1 : CleanedRecord :=
  { title := "Effects of Covid on lungs", abstract := "NO ABSTRACT PROVIDED",
    journal := "Nature", publish_time := "2020-05-01",
    publish_date := ⟨2020, 5, 1⟩, year := 2020 }

/-- Second record of the two-record demo table. -/
def demoRec2 : CleanedRecord :=
  { title := "Covid vaccine trial study", abstract := "NO ABSTRACT PROVIDED",
    journal := "Science", publish_time := "2021-01-01",
    publish_date := ⟨2021, 1, 1⟩, year := 2021 }

/-- A two-record cleaned table with distinct journals, used to exercise
`top_journals` at a negative `n`. -/
def demoTwo : List CleanedRecord := [demoRec1, demoRec2]

/-! ### Helper lemmas -/

/-- Characterization of a successful row clean. -/
lemma cleanRow_eq_some {parse : String → Option Date} {r : Record}
    {c : CleanedRecord} (h : cleanRow parse r = some c) :
    r.title = some c.title ∧ r.publish_time = some c.publish_time ∧
    parse c.publish_time = some c.publish_date ∧
    c.year = c.publish_date.year ∧
    c.abstract = r.abstract.getD "NO ABSTRACT PROVIDED" ∧
    c.journal = r.journal.getD "UNKNOWN JOURNAL" := by
  obtain ⟨t, a, j, pt⟩ := r
  cases t with
  | none => simp [cleanRow] at h
  | some t =>
    cases pt with
    | none => simp [cleanRow] at h
    | some pt =>
      simp only [cleanRow] at h
      cases hp : parse pt with
      | none => rw [hp] at h; exact absurd h (by simp)
      | some d =>
        rw [hp] at h
        obtain rfl := Option.some.inj h
        simpa using hp

/-- Membership in the cleaner's output. -/
lemma mem_load_and_clean {parse : String → Option Date} {rows : List Record}
    {c : CleanedRecord} :
    c ∈ load_and_clean_data parse rows ↔ ∃ r ∈ rows, cleanRow parse r = some c := by
  simp [load_and_clean_data, List.mem_filterMap]

/-- A record the cleaner produced is a fixed point of row cleaning. -/
lemma cleanRow_recordOfCleaned {parse : String → Option Date} {r : Record}
    {c : CleanedRecord} (h : cleanRow parse r = some c) :
    cleanRow parse (recordOfCleaned c) = some c := by
  obtain ⟨-, -, hp, hy, -, -⟩ := cleanRow_eq_some h
  obtain ⟨t, a, j, pt, d, y⟩ := c
  simp only at hp hy
  simp [cleanRow, recordOfCleaned, hp, hy]

/-- `filterMap` applied twice through a section `g` of `f` is the same as
once, when every output of `f` is a fixed point. -/
lemma filterMap_idem {α β : Type} (f : α → Option β) (g : β → α)
    (hfix : ∀ a c, f a = some c → f (g c) = some c) (l : List α) :
    ((l.filterMap f).map g).filterMap f = l.filterMap f := by
  induction l with
  | nil => rfl
  | cons a l ih =>
    cases hfa : f a with
    | none => simp [List.filterMap_cons, hfa, ih]
    | some c => simp [List.filterMap_cons, hfa, hfix a c hfa, ih]

/-- Membership in `dedupFirstAux`. -/
lemma mem_dedupFirstAux {α : Type} [DecidableEq α] (a : α) (l : List α) :
    ∀ seen, a ∈ dedupFirstAux l seen ↔ a ∈ l ∧ a ∉ seen := by
  induction l with
  | nil => intro seen; simp [dedupFirstAux]
  | cons x rest ih =>
    intro seen
    simp only [dedupFirstAux]
    by_cases hx : x ∈ seen
    · rw [if_pos hx, ih]
      constructor
      · rintro ⟨h1, h2⟩
        exact ⟨List.mem_cons_of_mem x h1, h2⟩
      · rintro ⟨h1, h2⟩
        rcases List.mem_cons.mp h1 with rfl | h1
        · exact absurd hx h2
        · exact ⟨h1, h2⟩
    · rw [if_neg hx]
      simp only [List.mem_cons, ih]
      constructor
      · rintro (rfl | ⟨h1, h2⟩)
        · exact ⟨Or.inl rfl, hx⟩
        · exact ⟨Or.inr h1, fun hs => h2 (Or.inr hs)⟩
      · rintro ⟨rfl | h1, h2⟩
        · exact Or.inl rfl
        · by_cases hax : a = x
          · exact Or.inl hax
          · exact Or.inr ⟨h1, by simp [List.mem_cons, hax, h2]⟩

/-- `dedupFirst` keeps exactly the elements of the list. -/
lemma mem_dedupFirst {α : Type} [DecidableEq α] {a : α} {l : List α} :
    a ∈ dedupFirst l ↔ a ∈ l := by
  simp [dedupFirst, mem_dedupFirstAux]

/-- Membership in `countVals`: a key of the list together with its
occurrence count.  -/
lemma mem_countVals {α : Type} [DecidableEq α] {p : α × Nat} {xs : List α} :
    p ∈ countVals xs ↔
      p.1 ∈ xs ∧ p.2 = (xs.filter (fun y => decide (y = p.1))).length := by
  unfold countVals
  rw [List.mem_map]
  constructor
  · rintro ⟨x, hx, rfl⟩
    exact ⟨mem_dedupFirst.mp hx, rfl⟩
  · rintro ⟨h1, h2⟩
    refine ⟨p.1, mem_dedupFirst.mpr h1, ?_⟩
    obtain ⟨x, n⟩ := p
    simp only at h2 ⊢
    rw [h2]

/-- Membership in `value_counts` is the same as in `countVals`. -/
lemma mem_value_counts {α : Type} [DecidableEq α] {p : α × Nat} {xs : List α} :
    p ∈ value_counts xs ↔
      p.1 ∈ xs ∧ p.2 = (xs.filter (fun y => decide (y = p.1))).length := by
  rw [value_counts, (List.perm_insertionSort countDesc _).mem_iff, mem_countVals]

/-- `value_counts` is ordered by count descending. -/
lemma sorted_value_counts {α : Type} [DecidableEq α] (xs : List α) :
    List.Pairwise countDesc (value_counts xs) :=
  List.sorted_insertionSort countDesc (countVals xs)

/-- Counting over a mapped list is counting the preimages. -/
lemma length_filter_map_eq {α β : Type} [DecidableEq β] (f : α → β)
    (l : List α) (b : β) :
    ((l.map f).filter (fun y => decide (y = b))).length
      = (l.filter (fun c => decide (f c = b))).length := by
  rw [List.filter_map, List.length_map]
  rfl

/-- Membership in the year filter. -/
lemma mem_filtered_data {rows : List CleanedRecord} {a b : Int}
    {c : CleanedRecord} :
    c ∈ filtered_data rows a b ↔ c ∈ rows ∧ a ≤ c.year ∧ c.year ≤ b := by
  simp [filtered_data, List.mem_filter, and_assoc]

/-- A degenerate range filters away everything. -/
lemma filtered_data_eq_nil {rows : List CleanedRecord} {a b : Int}
    (h : b < a) : filtered_data rows a b = [] := by
  rw [filtered_data, List.filter_eq_nil_iff]
  intro c _
  simp only [Bool.and_eq_true, decide_eq_true_eq, not_and]
  intro h1 h2
  exact absurd (le_trans h1 h2) (not_le.mpr h)

/-- Membership in the token filter. -/
lemma mem_filterTokens {stops ws : List String} {w : String} :
    w ∈ filterTokens stops ws ↔ w ∈ ws ∧ w ∉ stops ∧ 2 < w.length := by
  simp [filterTokens, List.mem_filter, and_assoc]

/-- Every short stop word has length at most 2. -/
lemma short_stop_words_short : ∀ w ∈ short_stop_words, w.length ≤ 2 := by
  decide

/-- On tokens longer than 2 characters, the reduced and the full stop-word
sets agree, so the token filters coincide. -/
lemma filterTokens_reduced_eq (ws : List String) :
    filterTokens stop_words_reduced ws = filterTokens stop_words ws := by
  unfold filterTokens
  apply List.filter_congr
  intro w _
  by_cases hl : 2 < w.length
  · by_cases hs : w ∈ stop_words
    · have hout : w ∉ short_stop_words := fun hw =>
        absurd hl (not_lt.mpr (short_stop_words_short w hw))
      have hin : w ∈ stop_words_reduced := by
        rw [stop_words_reduced, List.mem_filter]
        simpa using ⟨hs, hout⟩
      simp [hs, hin]
    · have hout : w ∉ stop_words_reduced := fun hw =>
        hs (List.mem_filter.mp hw).1
      simp [hs, hout]
  · simp [hl]

/-! ### Claim theorems -/

/-- C1: every record in the Cleaner's output has a non-null title, journal
and abstract (each obtained from a source row, with the placeholder filling
for abstract/journal), a successfully parsed `publish_date`, and an integer
`year` equal to the calendar year of that `publish_date`. -/
theorem cleaner_output_invariant (parse : String → Option Date)
    (rows : List Record) (c : CleanedRecord)
    (h : c ∈ load_and_clean_data parse rows) :
    c.year = c.publish_date.year ∧
    parse c.publish_time = some c.publish_date ∧
    ∃ r ∈ rows, r.title = some c.title ∧ r.publish_time = some c.publish_time ∧
      c.abstract = r.abstract.getD "NO ABSTRACT PROVIDED" ∧
      c.journal = r.journal.getD "UNKNOWN JOURNAL" := by
  obtain ⟨r, hr, hc⟩ := mem_load_and_clean.mp h
  obtain ⟨h1, h2, h3, h4, h5, h6⟩ := cleanRow_eq_some hc
  exact ⟨h4, h3, r, hr, h1, h2, h5, h6⟩

/-- Witness for C1 at the spec's example input. -/
theorem cleaner_output_invariant_witness :
    demoCleaned.year = demoCleaned.publish_date.year ∧
    parseDemo demoCleaned.publish_time = some demoCleaned.publish_date ∧
    ∃ r ∈ demoRows, r.title = some demoCleaned.title ∧
      r.publish_time = some demoCleaned.publish_time ∧
      demoCleaned.abstract = r.abstract.getD "NO ABSTRACT PROVIDED" ∧
      demoCleaned.journal = r.journal.getD "UNKNOWN JOURNAL" :=
  cleaner_output_invariant parseDemo demoRows demoCleaned (by decide)

/-- C5: the Filter returns exactly the records whose year lies in the
inclusive range, a degenerate range yields an empty result, and (being a
total function of its inputs) it never errors. -/
theorem filtered_data_spec (rows : List CleanedRecord) (a b : Int) :
    (∀ c, c ∈ filtered_data rows a b ↔ c ∈ rows ∧ a ≤ c.year ∧ c.year ≤ b) ∧
    (b < a → filtered_data rows a b = []) :=
  ⟨fun _ => mem_filtered_data, fun h => filtered_data_eq_nil h⟩

/-- Witness for C5 at a concrete table and concrete ranges. -/
theorem filtered_data_spec_witness :
    (demoCleaned ∈ filtered_data demoTwo 2020 2020 ↔
      demoCleaned ∈ demoTwo ∧ (2020 : Int) ≤ demoCleaned.year ∧
        demoCleaned.year ≤ 2020) ∧
    filtered_data demoTwo 2021 2020 = [] :=
  ⟨(filtered_data_spec demoTwo 2020 2020).1 demoCleaned,
   (filtered_data_spec demoTwo 2021 2020).2 (by decide)⟩

/-- C6: the Cleaner is idempotent — re-running the cleaning steps on the
Cleaner's own output (viewed again as raw rows) drops nothing further and
changes no field. -/
theorem cleaner_idempotent (parse : String → Option Date) (rows : List Record) :
    load_and_clean_data parse
        ((load_and_clean_data parse rows).map recordOfCleaned)
      = load_and_clean_data parse rows := by
  unfold load_and_clean_data
  exact filterMap_idem (cleanRow parse) recordOfCleaned
    (fun _ _ h => cleanRow_recordOfCleaned h) rows

/-- C7: the year histogram maps each distinct year of the table to the
number of records having that year, and is ordered by year ascending. -/
theorem year_counts_spec (rows : List CleanedRecord) :
    List.Pairwise yearAsc (year_counts rows) ∧
    ∀ p : Int × Nat, p ∈ year_counts rows ↔
      ((∃ c ∈ rows, c.year = p.1) ∧
        p.2 = (rows.filter (fun c => decide (c.year = p.1))).length) := by
  constructor
  · exact List.sorted_insertionSort yearAsc _
  · intro p
    rw [year_counts, (List.perm_insertionSort yearAsc _).mem_iff,
      mem_value_counts, length_filter_map_eq]
    simp [List.mem_map]

/-- Witness for C7 at a concrete table and histogram entry. -/
theorem year_counts_spec_witness :
    List.Pairwise yearAsc (year_counts demoTwo) ∧
    (((2020 : Int), (1 : Nat)) ∈ year_counts demoTwo ↔
      ((∃ c ∈ demoTwo, c.year = 2020) ∧
        (1 : Nat) = (demoTwo.filter (fun c => decide (c.year = 2020))).length)) :=
  ⟨(year_counts_spec demoTwo).1, (year_counts_spec demoTwo).2 (2020, 1)⟩

/-- C8: on an empty filtered set (as produced by a degenerate year range)
all three aggregates — year histogram, top-N journals, top-N words — are
empty. -/
theorem empty_filter_aggregates_empty (rows : List CleanedRecord) (a b : Int)
    (n : Int) (m : Nat) (h : b < a) :
    year_counts (filtered_data rows a b) = [] ∧
    top_journals (filtered_data rows a b) n = [] ∧
    top_words_list (filtered_data rows a b) m = [] := by
  rw [filtered_data_eq_nil h]
  refine ⟨rfl, ?_, ?_⟩
  · show head_int n ([] : List (String × Nat)) = []
    simp [head_int]
  · show (([] : List (String × Nat)).take m) = []
    simp

/-- Witness for C8 at a concrete table and degenerate range. -/
theorem empty_filter_aggregates_empty_witness :
    year_counts (filtered_data demoTwo 2021 2020) = [] ∧
    top_journals (filtered_data demoTwo 2021 2020) 10 = [] ∧
    top_words_list (filtered_data demoTwo 2021 2020) 15 = [] :=
  empty_filter_aggregates_empty demoTwo 2021 2020 10 15 (by decide)

/-- `head_int` always yields a sublist (an initial segment). -/
lemma head_int_sublist {α : Type} (n : Int) (l : List α) :
    List.Sublist (head_int n l) l := by
  unfold head_int
  split <;> exact List.take_sublist _ _

/-- C3: the top-N-words result has at most N entries, is ordered by count
descending (ties broken by first-encountered order, as built into the
counting order), and every entry is a token of the case-folded concatenated
titles that is neither a stop word nor of length ≤ 2. -/
theorem top_words_spec (rows : List CleanedRecord) (n : Nat) :
    (top_words_list rows n).length ≤ n ∧
    List.Pairwise countDesc (top_words_list rows n) ∧
    ∀ p : String × Nat, p ∈ top_words_list rows n →
      p.1 ∈ wordsOf rows ∧ p.1 ∉ stop_words ∧ 2 < p.1.length := by
  refine ⟨List.length_take_le n _, ?_, ?_⟩
  · exact (sorted_value_counts _).sublist (List.take_sublist n _)
  · intro p hp
    have hv : p ∈ value_counts (filtered_words rows) := List.mem_of_mem_take hp
    exact mem_filterTokens.mp (mem_value_counts.mp hv).1

/-- Witness for C3: the word "effects" of the demo table's top list. -/
theorem top_words_spec_witness :
    ("effects" : String) ∈ wordsOf demoTwo ∧
    ("effects" : String) ∉ stop_words ∧ 2 < ("effects" : String).length :=
  (top_words_spec demoTwo 15).2.2 ("effects", 1) (by decide)

/-- C4 counterexample: at the negative argument `n = -1` (which satisfies
`n ≤ 0`), `top_journals` on a two-journal table is not empty — pandas
`head` with a negative argument keeps all but the last `|n|` rows. -/
theorem top_journals_neg_counterexample :
    (-1 : Int) ≤ 0 ∧ top_journals demoTwo (-1) ≠ [] := by decide

/-- C4 (amended): the top-N-journals result counts records per distinct
journal, is ordered by count descending (ties broken by first-encountered
order), and for `0 ≤ N` is truncated to at most `N` entries with `N = 0`
yielding an empty result; a negative `N` instead drops the last `|N|`
entries and so need not yield an empty result. -/
theorem top_journals_spec (rows : List CleanedRecord) (n : Int) :
    (∀ p : String × Nat, p ∈ top_journals rows n →
      (∃ c ∈ rows, c.journal = p.1) ∧
      p.2 = (rows.filter (fun c => decide (c.journal = p.1))).length) ∧
    List.Pairwise countDesc (top_journals rows n) ∧
    (0 ≤ n → (top_journals rows n).length ≤ n.toNat) ∧
    (n = 0 → top_journals rows n = []) := by
  refine ⟨?_, ?_, ?_, ?_⟩
  · intro p hp
    have hv : p ∈ value_counts (rows.map (fun c => c.journal)) :=
      (head_int_sublist n _).subset hp
    obtain ⟨h1, h2⟩ := mem_value_counts.mp hv
    rw [length_filter_map_eq] at h2
    refine ⟨?_, h2⟩
    simpa [List.mem_map] using h1
  · exact (sorted_value_counts _).sublist (head_int_sublist n _)
  · intro hn
    rw [top_journals, head_int, if_pos hn]
    exact List.length_take_le _ _
  · rintro rfl
    rw [top_journals, head_int]
    simp

/-- Witness for C4 at concrete tables and concrete `N`. -/
theorem top_journals_spec_witness :
    ((∃ c ∈ demoTwo, c.journal = "Nature") ∧
      (1 : Nat) = (demoTwo.filter (fun c => decide (c.journal = "Nature"))).length) ∧
    (top_journals demoTwo 10).length ≤ (10 : Int).toNat ∧
    top_journals demoTwo 0 = [] :=
  ⟨(top_journals_spec demoTwo 10).1 ("Nature", 1) (by decide),
   (top_journals_spec demoTwo 10).2.2.1 (by decide),
   (top_journals_spec demoTwo 0).2.2.2 rfl⟩

/-- C2 counterexample: the export of the filtered demo table is not the
four-column table the spec describes — the code exports `filtered_data`
with all its columns, only the on-screen sample is restricted to
`publish_date, title, journal, abstract`. -/
theorem export_columns_counterexample :
    convert_df_to_csv (filtered_data demoTwo 2020 2021)
      ≠ export_spec_columns (filtered_data demoTwo 2020 2021) := by decide

/-- C2 (amended): the export contains exactly the rows of the currently
filtered set — the full filtered set, not only the displayed sample of
20 — one CSV row per record after the header, but with all columns of the
cleaned table; the displayed four-column sample row is the projection of
the corresponding exported row. -/
theorem export_full_filtered_rows (rows : List CleanedRecord) (a b : Int) :
    (convert_df_to_csv (filtered_data rows a b)).length
        = (filtered_data rows a b).length + 1 ∧
    (∀ c, c ∈ filtered_data rows a b →
      csvRow c ∈ convert_df_to_csv (filtered_data rows a b)) ∧
    (∀ c, c ∈ filtered_data rows a b → projSample (csvRow c) = sampleRow c) := by
  refine ⟨by simp [convert_df_to_csv], ?_, ?_⟩
  · intro c hc
    exact List.mem_cons_of_mem _ (List.mem_map_of_mem csvRow hc)
  · intro c _
    rfl

/-- Witness for C2's amended theorem at the demo table. -/
theorem export_full_filtered_rows_witness :
    csvRow demoRec1 ∈ convert_df_to_csv (filtered_data demoTwo 2020 2021) ∧
    projSample (csvRow demoRec1) = sampleRow demoRec1 :=
  ⟨(export_full_filtered_rows demoTwo 2020 2021).2.1 demoRec1 (by decide),
   (export_full_filtered_rows demoTwo 2020 2021).2.2 demoRec1 (by decide)⟩

/-- C9: the interactive tool's stop-word set is exactly the batch script's
set plus the five extra terms, and none of the extra terms occurs in the
batch set (so the two sets agree on every other word). -/
theorem stop_words_sets_relation :
    (∀ w : String,
      w ∈ stop_words ↔ (w ∈ stop_words_batch ∨ w ∈ extra_stop_words)) ∧
    (∀ w ∈ extra_stop_words, w ∉ stop_words_batch) := by
  constructor
  · intro w
    have h : stop_words = stop_words_batch ++ extra_stop_words := by rfl
    rw [h, List.mem_append]
  · decide

/-- Witness for C9 at the concrete word "sars". -/
theorem stop_words_sets_relation_witness :
    (("sars" : String) ∈ stop_words ↔
      (("sars" : String) ∈ stop_words_batch ∨
        ("sars" : String) ∈ extra_stop_words)) ∧
    ("sars" : String) ∉ stop_words_batch :=
  ⟨stop_words_sets_relation.1 "sars",
   stop_words_sets_relation.2 "sars" (by decide)⟩

/-- C10: the length-≤-2 stop words are redundant — they are exactly the
short words listed, and removing them from the stop-word set changes
neither the filtered token list nor the top-N-words result, because the
length filter drops every token of length ≤ 2 anyway. -/
theorem short_stop_words_redundant (rows : List CleanedRecord) (n : Nat) :
    stop_words_reduced = stop_words.filter (fun w => decide (2 < w.length)) ∧
    filterTokens stop_words_reduced (wordsOf rows) = filtered_words rows ∧
    top_words_with stop_words_reduced rows n = top_words_list rows n := by
  refine ⟨by decide, filterTokens_reduced_eq (wordsOf rows), ?_⟩
  unfold top_words_with top_words_list filtered_words
  rw [filterTokens_reduced_eq]
